import Mathlib

/-!
Verification of the document ingestion pipeline.

A shallow embedding, in Lean 4, of the document-ingestion pipeline of the
`student-site-refresh` repository: format detection (`detectFileType`), the
per-format extractors (`extractFromPDF`, `extractFromDOCX`, `extractFromTXT`,
`extractFromPPTBinary`, `extractFromPPTX`), the extraction orchestrator
(`extractFileContent`, `extractAllFilesContent`), the streaming page processor
(`processPdfStream`) and the math-content detector (`detectMathContent`).

Pure functions of the source are translated to Lean functions; asynchronous
and stateful behaviour (OCR calls, the wall-clock budget, JavaScript regex
`lastIndex` state) is made explicit by instrumented return values, an oracle
parameter for elapsed-time checks, and explicit state passing.  Machine
integers of the source are modelled as `Nat` (byte values are `< 256` by
construction of `Uint8Array`; the only 32-bit read, `recLen`, is forced
unsigned by `>>> 0` in the source and is a plain `Nat` here).
-/

namespace FileExtractor

/-- The ECMAScript whitespace class: the characters matched by `\s` and
stripped by `String.prototype.trim` (ASCII whitespace, NBSP, the Unicode
space separators, the line separators and ZWNBSP). -/
def jsWhitespace (c : Char) : Bool :=
  (0x9 ≤ c.toNat && c.toNat ≤ 0xD) || c.toNat = 0x20 || c.toNat = 0xA0 ||
  c.toNat = 0x1680 || (0x2000 ≤ c.toNat && c.toNat ≤ 0x200A) ||
  c.toNat = 0x2028 || c.toNat = 0x2029 || c.toNat = 0x202F ||
  c.toNat = 0x205F || c.toNat = 0x3000 || c.toNat = 0xFEFF

/-- JavaScript `String.prototype.trim`: strip leading and trailing
whitespace. -/
def jsTrim (s : String) : String :=
  ⟨((s.data.dropWhile jsWhitespace).reverse.dropWhile jsWhitespace).reverse⟩

/-- Worker for `jsSplitWs`: `cur` is the current piece (reversed), `inSep`
records whether the scan is inside a whitespace run (so that a maximal run
produces a single split point, as the greedy `\s+` does). -/
def splitWsAux : List Char → Bool → List Char → List String
  | cur, _, [] => [String.mk cur.reverse]
  | cur, inSep, c :: cs =>
    if jsWhitespace c then
      if inSep then splitWsAux cur true cs
      else String.mk cur.reverse :: splitWsAux [] true cs
    else splitWsAux (c :: cur) false cs

/-- JavaScript `s.split(/\s+/)`: the pieces of `s` between maximal
whitespace runs (a leading or trailing run contributes an empty piece, and
`""` splits to `[""]`). -/
def jsSplitWs (s : String) : List String :=
  splitWsAux [] false s.data

/-- Model of `countWords` of `src/lib/fileExtractor.ts`:
`text.trim().split(/\s+/).filter(word => word.length > 0).length`. -/
def countWords (text : String) : Nat :=
  ((jsSplitWs (jsTrim text)).filter (fun w => w.length > 0)).length

/-- The JavaScript `Set.add` on the insertion-ordered element list:
append the element unless it is already present. -/
def addUnique (pages : List Nat) (p : Nat) : List Nat :=
  if p ∈ pages then pages else pages ++ [p]

/-- Model of `Array.from(pages).sort((a, b) => a - b)`: ascending numeric sort,
modelled by insertion sort. -/
def sortAsc (l : List Nat) : List Nat :=
  l.insertionSort (· ≤ ·)

/-- The middle loop of `samplePageNumbers`:
`for (let p = step; p <= totalPages && pages.size < maxPages; p += step) pages.add(p)`.
`fuel` bounds the iteration count; with `step ≥ 1` the loop runs at most
`totalPages` times, so `fuel = totalPages + 1` is exact.  (`step = 0` with the
size guard open would be an infinite loop in the source; it is unreachable for
the arguments the source passes, see `samplePageNumbers`.) -/
def fillMiddle (totalPages maxPages step : Nat) : Nat → Nat → List Nat → List Nat
  | 0, _, pages => pages
  | fuel + 1, p, pages =>
    if p ≤ totalPages ∧ pages.length < maxPages then
      fillMiddle totalPages maxPages step fuel (p + step) (addUnique pages p)
    else pages

/-- Model of `samplePageNumbers(totalPages, maxPages)` of `src/lib/fileExtractor.ts`:
if `totalPages ≤ maxPages` return `[1..totalPages]`; otherwise seed a set with
pages `1..min 3 totalPages` and `max 1 (totalPages-1)..totalPages`, compute
`step = Math.floor(totalPages / (maxPages - pages.size + 1))` and fill the
middle with multiples of `step`, then sort ascending.  The `Nat` subtraction
`maxPages + 1 - pages.length` is `0` exactly when the JavaScript denominator
is `≤ 0`, in which case `step = 0` here while the source gets a nonpositive or
infinite step: in every such state the size guard is already closed, so both
perform zero loop iterations. -/
def samplePageNumbers (totalPages maxPages : Nat) : List Nat :=
  if totalPages ≤ maxPages then
    (List.range totalPages).map (· + 1)
  else
    let pages1 := (List.range (min 3 totalPages)).foldl (fun ps i => addUnique ps (i + 1)) []
    let lo := max 1 (totalPages - 1)
    let pages2 := ((List.range (totalPages + 1 - lo)).map (· + lo)).foldl addUnique pages1
    let step := totalPages / (maxPages + 1 - pages2.length)
    sortAsc (fillMiddle totalPages maxPages step (totalPages + 1) step pages2)

/-- One page of a loaded PDF document as `extractFromPDF` observes it:
`items` are the `textContent.items[*].str` strings of the native text layer,
and `ocr` is the outcome of `pdfPageToImage` followed by
`withTimeout(performOCR(...), 4000, '')` — `some t` when the pipeline
resolves with text `t` (a timed-out call resolves with `""`), `none` when the
per-page `try` block throws (render failure, worker failure). -/
structure PdfPage where
  items : List String
  ocr : Option String
deriving Repr, DecidableEq

/-- A loaded PDF document (`pdf` in the source); `numPages = pages.length`. -/
structure PdfDoc where
  pages : List PdfPage
deriving Repr, DecidableEq

/-- Step 1 of `extractFromPDF`: per page,
`fullText += textContent.items.map(item => item.str).join(' ') + '\n\n'`. -/
def nativeText (doc : PdfDoc) : String :=
  String.join (doc.pages.map (fun p => String.intercalate " " p.items ++ "\n\n"))

/-- The result of `extractFromPDF`, instrumented with the number of OCR
operations started (pages for which the render-and-recognize pipeline was
invoked); the source returns only `text`. -/
structure PdfRun where
  text : String
  ocrCalls : Nat
deriving Repr, DecidableEq

/-- One page of the OCR batch:
`try { getPage; pdfPageToImage; withTimeout(performOCR, 4000, '') ;
return text.trim() ? { pageNum, text } : null } catch { return null }`. -/
def ocrPage (doc : PdfDoc) (pageNum : Nat) : Option (Nat × String) :=
  match doc.pages.get? (pageNum - 1) with
  | none => none
  | some pg =>
    match pg.ocr with
    | none => none
    | some t => if jsTrim t ≠ "" then some (pageNum, t) else none

/-- The batched OCR loop of `extractFromPDF`:
`for (i = 0; i < pagesToOCR.length; i += batchSize)` with `batchSize = 4`,
breaking before a batch when the 7-second budget is exceeded.  Wall-clock
time is abstracted by the oracle `budgetExceeded i`, the value of
`Date.now() - startTime > 7000` observed at loop index `i`.  Returns the
collected non-null per-page results (in collection order) and the number of
OCR operations started.  `fuel ≥ pagesToOCR.length + 1` makes the recursion
exact since `i` grows by 4 each iteration. -/
def ocrLoop (doc : PdfDoc) (pagesToOCR : List Nat) (budgetExceeded : Nat → Bool) :
    Nat → Nat → List (Nat × String) × Nat
  | 0, _ => ([], 0)
  | fuel + 1, i =>
    if i < pagesToOCR.length then
      if budgetExceeded i then ([], 0)
      else
        let batch := (pagesToOCR.drop i).take 4
        let res := batch.filterMap (ocrPage doc)
        let rest := ocrLoop doc pagesToOCR budgetExceeded fuel (i + 4)
        (res ++ rest.1, batch.length + rest.2)
    else ([], 0)

/-- Model of `ocrResults.sort((a, b) => a.pageNum - b.pageNum)`. -/
def sortByPage (l : List (Nat × String)) : List (Nat × String) :=
  l.insertionSort (fun a b => a.1 ≤ b.1)

/-- Model of `extractFromPDF` of `src/lib/fileExtractor.ts`: native text extraction
first; if the trimmed native text has at least 50 words it is returned with
no OCR; otherwise OCR runs on `samplePageNumbers(numPages, 8)` in batches of
4 under the budget oracle, results are sorted by page, rendered with
`[Page N]` markers and, when sampling did not cover every page, a sampling
note is appended; if no OCR result survived, the trimmed native text is
returned. -/
def extractFromPDF (doc : PdfDoc) (budgetExceeded : Nat → Bool) : PdfRun :=
  let trimmedText := jsTrim (nativeText doc)
  let wordCount := countWords trimmedText
  if 50 ≤ wordCount then
    { text := trimmedText, ocrCalls := 0 }
  else
    let pagesToOCR := samplePageNumbers doc.pages.length 8
    let run := ocrLoop doc pagesToOCR budgetExceeded (pagesToOCR.length + 1) 0
    if run.1.length = 0 then
      { text := trimmedText, ocrCalls := run.2 }
    else
      let ocrResults := sortByPage run.1
      let ocrText := String.intercalate "\n\n"
        (ocrResults.map (fun r => "[Page " ++ toString r.1 ++ "]\n" ++ r.2))
      let sampled :=
        if pagesToOCR.length < doc.pages.length then
          "\n\n[Note: " ++ toString doc.pages.length ++
            "-page document — content sampled from " ++
            toString pagesToOCR.length ++ " pages]"
        else ""
      { text := ocrText ++ sampled, ocrCalls := run.2 }

/-- Model of `streamData[i]` on the `Uint8Array`: the typed array stores byte values,
modelled by reducing the stored `Nat` modulo 256.  Every read the scan
performs is guarded in range; an out-of-range index yields 0. -/
def byteAt (s : List Nat) (i : Nat) : Nat :=
  ((s.get? i).getD 0) % 256

/-- Model of `recVer`: low nibble of header byte 0 (`streamData[offset] & 0x0F`). -/
def recVerAt (s : List Nat) (off : Nat) : Nat :=
  byteAt s off &&& 0x0F

/-- Model of `recType`: header bytes 2-3 as little-endian u16
(`streamData[offset+2] | (streamData[offset+3] << 8)`). -/
def recTypeAt (s : List Nat) (off : Nat) : Nat :=
  byteAt s (off + 2) ||| (byteAt s (off + 3) <<< 8)

/-- Model of `recLen`: header bytes 4-7 as little-endian u32; the source forces the
32-bit read unsigned with `>>> 0`, so for byte inputs it is exactly this
weighted sum. -/
def recLenAt (s : List Nat) (off : Nat) : Nat :=
  byteAt s (off + 4) ||| (byteAt s (off + 5) <<< 8) |||
    (byteAt s (off + 6) <<< 16) ||| (byteAt s (off + 7) <<< 24)

/-- Model of `isReadableText` of the source: at least 80% of the characters are
printable ASCII, whitespace controls, or BMP characters from NBSP up.  The
source compares `printable / text.length >= 0.8` in floating point; for the
lengths reachable here (≤ 10 MB) that comparison is exact, so the integral
form `5 * printable ≥ 4 * length` is equivalent. -/
def isReadableText (text : String) : Bool :=
  if text.data.length = 0 then false
  else
    let printable := (text.data.filter (fun ch =>
      let code := ch.toNat
      (0x20 ≤ code && code ≤ 0x7E) || code = 0x0A || code = 0x0D || code = 0x09 ||
        (0xA0 ≤ code && code ≤ 0xFFFF))).length
    4 * text.data.length ≤ 5 * printable

/-- TextBytesAtom payload decode: single-byte characters, CR mapped to
newline, characters `≥ 0x20` or TAB kept, other control bytes dropped. -/
def decodeBytesAtom (s : List Nat) (off recLen : Nat) : String :=
  ⟨(List.range recLen).filterMap (fun i =>
    let charCode := byteAt s (off + i)
    if charCode = 0x0D then some '\n'
    else if 0x20 ≤ charCode ∨ charCode = 0x09 then some (Char.ofNat charCode)
    else none)⟩

/-- TextCharsAtom payload decode: UTF-16LE code units
(`for (i = 0; i + 1 < recLen; i += 2)`, hence `recLen / 2` units), same
control-character policy.  A lone surrogate code unit (binary noise) becomes
NUL here where JavaScript would keep the unpaired surrogate. -/
def decodeCharsAtom (s : List Nat) (off recLen : Nat) : String :=
  ⟨(List.range (recLen / 2)).filterMap (fun j =>
    let charCode := byteAt s (off + 2 * j) ||| (byteAt s (off + 2 * j + 1) <<< 8)
    if charCode = 0x0D then some '\n'
    else if 0x20 ≤ charCode ∨ charCode = 0x09 then some (Char.ofNat charCode)
    else none)⟩

/-- The record-scanning loop of `extractFromPPTBinary`
(`while (offset + 8 <= streamData.length)`).  Each iteration advances
`offset` by at least 8, so `fuel = s.length + 1` (more than `s.length / 8`
iterations) makes the recursion exact.  A record whose `recLen` exceeds the
remaining stream or the 10 MB ceiling stops the scan, returning the text
blocks accepted so far. -/
def scanGo (s : List Nat) : Nat → Nat → List String → List String
  | 0, _, texts => texts
  | fuel + 1, offset, texts =>
    if offset + 8 ≤ s.length then
      let recVer := recVerAt s offset
      let recType := recTypeAt s offset
      let recLen := recLenAt s offset
      let offb := offset + 8
      if s.length - offb < recLen ∨ 10000000 < recLen then texts
      else
        let texts2 :=
          if recType = 0x0FA8 ∧ 0 < recLen then
            let trimmed := jsTrim (decodeBytesAtom s offb recLen)
            if 1 < trimmed.length ∧ isReadableText trimmed then texts ++ [trimmed]
            else texts
          else if recType = 0x0FA0 ∧ 1 < recLen then
            let trimmed := jsTrim (decodeCharsAtom s offb recLen)
            if 1 < trimmed.length ∧ isReadableText trimmed then texts ++ [trimmed]
            else texts
          else texts
        if recVer ≠ 0x0F then scanGo s fuel (offb + recLen) texts2
        else scanGo s fuel offb texts2
    else texts

/-- The full record scan of the `"PowerPoint Document"` stream. -/
def scanRecords (s : List Nat) : List String :=
  scanGo s (s.length + 1) 0 []

/-- Outcome of the OLE2 container stage of `extractFromPPTBinary`:
`CFB.read` throws (`corrupt`), the `"PowerPoint Document"` stream is absent
or has no content (`missing`), or the stream bytes are found. -/
inductive CfbParse where
  | corrupt
  | missing
  | stream (bytes : List Nat)
deriving Repr, DecidableEq

/-- The error message of the zero-text terminal branch. -/
def noReadableTextMsg (filename : String) : String :=
  "No readable text found in " ++ filename ++
    ". The presentation may contain only images or embedded objects. " ++
    "Try exporting to PDF or PPTX from PowerPoint."

/-- Model of `extractFromPPTBinary` of `src/lib/fileExtractor.ts`: fail on a corrupt
container or a missing `"PowerPoint Document"` stream; otherwise scan the
stream for text records and either return the accepted blocks joined by
blank lines or fail with the no-readable-text message. -/
def extractFromPPTBinary (filename : String) (cfb : CfbParse) : Except String String :=
  match cfb with
  | .corrupt =>
    .error ("Could not parse " ++ filename ++
      ". The file may be corrupted or not a valid PowerPoint file.")
  | .missing =>
    .error ("Could not find presentation data in " ++ filename ++
      ". The file may be corrupted.")
  | .stream s =>
    let texts := scanRecords s
    if texts.length = 0 then .error (noReadableTextMsg filename)
    else .ok (String.intercalate "\n\n" texts)

/-- A record header at `off` claiming more payload than the remaining stream
holds, or more than the 10 MB sanity ceiling. -/
def corruptHeaderAt (s : List Nat) (off : Nat) : Prop :=
  off + 8 ≤ s.length ∧
    (s.length - (off + 8) < recLenAt s off ∨ 10000000 < recLenAt s off)

instance (s : List Nat) (off : Nat) : Decidable (corruptHeaderAt s off) := by
  unfold corruptHeaderAt; exact inferInstance

instance {ε α : Type} [DecidableEq ε] [DecidableEq α] : DecidableEq (Except ε α) :=
  fun a b =>
  match a, b with
  | .ok x, .ok y => decidable_of_iff (x = y) (by simp)
  | .error x, .error y => decidable_of_iff (x = y) (by simp)
  | .ok _, .error _ => isFalse (by simp)
  | .error _, .ok _ => isFalse (by simp)

/-- A PPTX archive as JSZip presents it after `loadAsync` succeeds:
`Object.keys(zip.files)` enumerates entry names in insertion order; each
entry's `async('string')` yields its XML text. -/
structure ZipModel where
  entries : List (String × String)
deriving DecidableEq, Repr

/-- Model of `zip.files[name].async('string')`: the XML text of the named entry. -/
def entryXml (z : ZipModel) (name : String) : String :=
  ((z.entries.find? (fun e => e.1 = name)).map Prod.snd).getD ""

/-- Test of `/ppt\/slides\/slide\d+\.xml$/` on an entry name: it ends with
`ppt/slides/slide`, then a nonempty digit run, then `.xml`.  (The digit run
is maximal because `slide` ends in a letter, so this decomposition is
equivalent to the regex.) -/
def isSlidePath (name : String) : Bool :=
  let r := name.data.reverse
  if r.take 4 = ['l', 'm', 'x', '.'] then
    let r2 := r.drop 4
    let digits := r2.takeWhile Char.isDigit
    decide (digits ≠ []) &&
      ("ppt/slides/slide".data.reverse).isPrefixOf (r2.drop digits.length)
  else false

/-- Test of `/ppt\/notesSlides\/notesSlide\d+\.xml$/` on an entry name. -/
def isNotesPath (name : String) : Bool :=
  let r := name.data.reverse
  if r.take 4 = ['l', 'm', 'x', '.'] then
    let r2 := r.drop 4
    let digits := r2.takeWhile Char.isDigit
    decide (digits ≠ []) &&
      ("ppt/notesSlides/notesSlide".data.reverse).isPrefixOf (r2.drop digits.length)
  else false

/-- The value of a digit string, as `parseInt` computes it on `\d+`. -/
def digitsVal (ds : List Char) : Nat :=
  ds.foldl (fun n c => 10 * n + (c.toNat - 48)) 0

/-- The capture of the first match of `/slide(\d+)/` in a name: scan left to
right for `slide` followed by at least one digit (a position where `slide`
appears without a following digit fails there and the scan resumes one
character later, as the regex engine does). -/
def slideDigits : List Char → Option (List Char)
  | [] => none
  | c :: cs =>
    if "slide".data.isPrefixOf (c :: cs) then
      let ds := ((c :: cs).drop 5).takeWhile Char.isDigit
      if ds = [] then slideDigits cs else some ds
    else slideDigits cs

/-- The capture of the first match of `/notesSlide(\d+)/` in a name. -/
def notesDigits : List Char → Option (List Char)
  | [] => none
  | c :: cs =>
    if "notesSlide".data.isPrefixOf (c :: cs) then
      let ds := ((c :: cs).drop 10).takeWhile Char.isDigit
      if ds = [] then notesDigits cs else some ds
    else notesDigits cs

/-- Model of `parseInt(path.match(/slide(\d+)/)?.[1] || '0')`: the slide sort key. -/
def slideNum (name : String) : Nat :=
  ((slideDigits name.data).map digitsVal).getD 0

/-- Model of `path.match(/slide(\d+)/)?.[1] || '?'`: the `[Slide N]` label digits. -/
def slideLabel (name : String) : String :=
  match slideDigits name.data with
  | some ds => ⟨ds⟩
  | none => "?"

/-- Model of `path.match(/notesSlide(\d+)/)?.[1] || '?'`: the `[Notes N]` label. -/
def notesLabel (name : String) : String :=
  match notesDigits name.data with
  | some ds => ⟨ds⟩
  | none => "?"

/-- Stable insertion for the numeric slide sort
(`.sort((a, b) => numA - numB)`, stable per the ECMAScript spec). -/
def insertBySlideNum (x : String) : List String → List String
  | [] => [x]
  | y :: ys =>
    if slideNum x < slideNum y then x :: y :: ys else y :: insertBySlideNum x ys

/-- The numeric slide sort of the filtered entry names. -/
def sortBySlideNum (l : List String) : List String :=
  l.foldr insertBySlideNum []

/-- All matches of `/<a:t>([^<]*)<\/a:t>/g` in a slide XML, each already
stripped of its tags (`.replace(/<\/?a:t>/g, '')`): scan for `<a:t>`, take
the run of non-`<` characters, and require the literal `</a:t>`; on a failed
match the scan resumes one character later, on a success it resumes after
the match.  Each step consumes at least one character, so
`fuel = length` makes the recursion exact. -/
def atMatchesGo : Nat → List Char → List String
  | 0, _ => []
  | _, [] => []
  | fuel + 1, c :: cs =>
    if "<a:t>".data.isPrefixOf (c :: cs) then
      let rest := (c :: cs).drop 5
      let content := rest.takeWhile (fun d => d ≠ '<')
      let rest2 := rest.drop content.length
      if "</a:t>".data.isPrefixOf rest2 then
        String.mk content :: atMatchesGo fuel (rest2.drop 6)
      else atMatchesGo fuel cs
    else atMatchesGo fuel cs

/-- The tag-stripped `<a:t>` text runs of a slide XML. -/
def atTexts (xml : String) : List String :=
  atMatchesGo xml.data.length xml.data

/-- One slide's text: the nonblank `<a:t>` runs joined by single spaces
(`.filter(text => text.trim()).join(' ')`). -/
def slideTextOf (xml : String) : String :=
  String.intercalate " " ((atTexts xml).filter (fun t => jsTrim t ≠ ""))

/-- The `[Slide N]` blocks of `extractFromPPTX`, in numeric slide order. -/
def pptxSlideTexts (z : ZipModel) : List String :=
  (sortBySlideNum ((z.entries.map Prod.fst).filter isSlidePath)).filterMap (fun p =>
    let slideText := slideTextOf (entryXml z p)
    if jsTrim slideText ≠ "" then some ("[Slide " ++ slideLabel p ++ "]\n" ++ slideText)
    else none)

/-- The `[Notes N]` blocks of `extractFromPPTX`, in entry order (the source
does not sort the notes entries). -/
def pptxNoteTexts (z : ZipModel) : List String :=
  ((z.entries.map Prod.fst).filter isNotesPath).filterMap (fun p =>
    let noteText := slideTextOf (entryXml z p)
    if jsTrim noteText ≠ "" then some ("[Notes " ++ notesLabel p ++ "]\n" ++ noteText)
    else none)

/-- The placeholder returned when the archive parses but no slide or notes
text is found. -/
def noExtractableTextMsg (filename : String) : String :=
  "[No extractable text found in " ++ filename ++
    ". The presentation may contain only images.]"

/-- The terminal error of the PPTX catch branch. -/
def pptxFailMsg (filename : String) : String :=
  "Failed to extract text from " ++ filename ++ ". Try exporting as PDF or DOCX."

/-- The result of `extractFromPPTX`, instrumented with the number of calls
to the generic converter (`mammoth.extractRawText`); the source returns only
the `Except` part (a thrown error or the text). -/
structure PptxRun where
  result : Except String String
  mammothCalls : Nat
deriving DecidableEq, Repr

/-- Model of `extractFromPPTX` of `src/lib/fileExtractor.ts`.  `zip` is the outcome of
`JSZip.loadAsync` (`none` when it throws) and `mammothResult` the outcome
`mammoth.extractRawText` would give on the same `arrayBuffer` (consulted only
in the catch branch).  When the archive parses, the slide blocks (numeric
order) and notes blocks are joined by blank lines; with zero blocks the
bracketed placeholder is returned as the text.  Only when the ZIP/XML stage
throws does the source try mammoth, returning its nonblank value or throwing
the terminal error. -/
def extractFromPPTX (filename : String) (zip : Option ZipModel)
    (mammothResult : Except String String) : PptxRun :=
  match zip with
  | some z =>
    let slideTexts := pptxSlideTexts z ++ pptxNoteTexts z
    if 0 < slideTexts.length then
      { result := .ok (String.intercalate "\n\n" slideTexts), mammothCalls := 0 }
    else
      { result := .ok (noExtractableTextMsg filename), mammothCalls := 0 }
  | none =>
    match mammothResult with
    | .ok v =>
      if jsTrim v ≠ "" then { result := .ok v, mammothCalls := 1 }
      else { result := .error (pptxFailMsg filename), mammothCalls := 1 }
    | .error _ => { result := .error (pptxFailMsg filename), mammothCalls := 1 }

/-- Character-level regular expressions covering the constructs the source's
`mathPatterns` use: literals (plain and case-insensitive for the `/i` flag),
character classes, sequencing, alternation, `+`, `*`, the zero-width word
boundary `\b`, and the empty pattern (fold unit). -/
inductive RE where
  | eps
  | lit (c : Char)
  | litCI (c : Char)
  | cls (p : Char → Bool)
  | seq (a b : RE)
  | alt (a b : RE)
  | plus (r : RE)
  | star (r : RE)
  | wordB

/-- ECMAScript `\w`: `[A-Za-z0-9_]`. -/
def jsWordChar (c : Char) : Bool :=
  ('a' ≤ c && c ≤ 'z') || ('A' ≤ c && c ≤ 'Z') || ('0' ≤ c && c ≤ '9') || c = '_'

/-- ECMAScript `\d`: `[0-9]`. -/
def jsDigit (c : Char) : Bool :=
  '0' ≤ c && c ≤ '9'

/-- Whether the character at index `i` is a word character (out of range
counts as non-word, as at the ends of the subject string). -/
def isWordAt (s : List Char) (i : Nat) : Bool :=
  match s.get? i with
  | some c => jsWordChar c
  | none => false

/-- The `\b` condition at index `i`: word-ness changes between `i - 1` and
`i`. -/
def boundaryAt (s : List Char) (i : Nat) : Bool :=
  xor (if i = 0 then false else isWordAt s (i - 1)) (isWordAt s i)

/-- End positions of one-or-more repetitions of a pattern (given its match
function `f`) starting at `i`.  Only progressing iterations are continued
(an iteration matching the empty string ends the repetition, as in
ECMAScript), so `fuel = length + 1` makes the recursion exact. -/
def plusEnds (f : Nat → List Nat) : Nat → Nat → List Nat
  | 0, _ => []
  | fuel + 1, i =>
    ((f i).filter (fun j => i < j)).flatMap (fun j => j :: plusEnds f fuel j)

/-- All end positions of matches of `r` starting at position `i` of `s`. -/
def matchEnds (s : List Char) : RE → Nat → List Nat
  | .eps, i => [i]
  | .lit c, i =>
    match s.get? i with
    | some d => if d = c then [i + 1] else []
    | none => []
  | .litCI c, i =>
    match s.get? i with
    | some d => if d.toLower = c.toLower then [i + 1] else []
    | none => []
  | .cls p, i =>
    match s.get? i with
    | some d => if p d then [i + 1] else []
    | none => []
  | .seq a b, i => (matchEnds s a i).flatMap (matchEnds s b)
  | .alt a b, i => matchEnds s a i ++ matchEnds s b i
  | .plus r, i => plusEnds (matchEnds s r) (s.length + 1) i
  | .star r, i => i :: plusEnds (matchEnds s r) (s.length + 1) i
  | .wordB, i => if boundaryAt s i then [i] else []

/-- The leftmost match of `r` at or after `start`: the first start position
with a nonempty end set, paired with the greedy (maximal) end — which
coincides with the backtracking engine's choice on the patterns used here. -/
def searchGo (s : List Char) (r : RE) : Nat → Nat → Option (Nat × Nat)
  | 0, _ => none
  | fuel + 1, start =>
    if start ≤ s.length then
      match matchEnds s r start with
      | [] => searchGo s r fuel (start + 1)
      | e :: es => some (start, (e :: es).foldl max 0)
    else none

/-- Model of `regex.test(s)` on a regex carrying the `g` flag: search from
`lastIndex`; on a match return `true` and set `lastIndex` to the match end,
otherwise return `false` and reset `lastIndex` to 0. -/
def testG (r : RE) (s : List Char) (lastIndex : Nat) : Bool × Nat :=
  match searchGo s r (s.length + 1) lastIndex with
  | some (_, e) => (true, e)
  | none => (false, 0)

/-- Fold a character string into a sequence of literals. -/
def strRE (w : String) : RE :=
  (w.data.map RE.lit).foldr RE.seq RE.eps

/-- Fold a character string into case-insensitive literals (the `/i` flag). -/
def strREci (w : String) : RE :=
  (w.data.map RE.litCI).foldr RE.seq RE.eps

/-- Fold alternatives left-to-right. -/
def altAll : List RE → RE
  | [] => RE.eps
  | r :: rs => rs.foldl RE.alt r

/-- Pattern `/\$[^$]+\$/g` — inline LaTeX. -/
def reInlineLatex : RE :=
  .seq (.lit '$') (.seq (.plus (.cls (fun c => c ≠ '$'))) (.lit '$'))

/-- Pattern `/\$\$[^$]+\$\$/g` — block LaTeX. -/
def reBlockLatex : RE :=
  .seq (.lit '$') (.seq (.lit '$') (.seq (.plus (.cls (fun c => c ≠ '$')))
    (.seq (.lit '$') (.lit '$'))))

/-- Pattern `/\\[\[\(][^\\]+\\[\]\)]/g` — LaTeX bracket delimiters. -/
def reLatexDelims : RE :=
  .seq (.lit '\\') (.seq (.cls (fun c => c = '[' || c = '('))
    (.seq (.plus (.cls (fun c => c ≠ '\\')))
      (.seq (.lit '\\') (.cls (fun c => c = ']' || c = ')')))))

/-- Pattern `/\b\d+\s*[+\-×÷*\/^=<>≤≥≠]\s*\d+/g` — basic equations. -/
def reBasicEquation : RE :=
  .seq .wordB (.seq (.plus (.cls jsDigit)) (.seq (.star (.cls jsWhitespace))
    (.seq (.cls (fun c =>
        c = '+' || c = '-' || c = '×' || c = '÷' || c = '*' || c = '/' ||
        c = '^' || c = '=' || c = '<' || c = '>' || c = '≤' || c = '≥' || c = '≠'))
      (.seq (.star (.cls jsWhitespace)) (.plus (.cls jsDigit))))))

/-- Pattern `/\b(sin|cos|tan|log|ln|sqrt|∑|∫|∏|√|π|θ|α|β|γ|Δ|∞)\b/gi` — math
functions and symbols. -/
def reMathWords : RE :=
  .seq .wordB (.seq (altAll [strREci "sin", strREci "cos", strREci "tan",
    strREci "log", strREci "ln", strREci "sqrt", strREci "∑", strREci "∫",
    strREci "∏", strREci "√", strREci "π", strREci "θ", strREci "α",
    strREci "β", strREci "γ", strREci "Δ", strREci "∞"]) .wordB)

/-- Pattern `/\b\w+\s*\^\s*\d+/g` — exponents. -/
def reExponent : RE :=
  .seq .wordB (.seq (.plus (.cls jsWordChar)) (.seq (.star (.cls jsWhitespace))
    (.seq (.lit '^') (.seq (.star (.cls jsWhitespace)) (.plus (.cls jsDigit))))))

/-- Pattern `/\b\d+\/\d+\b/g` — fractions. -/
def reFraction : RE :=
  .seq .wordB (.seq (.plus (.cls jsDigit)) (.seq (.lit '/')
    (.seq (.plus (.cls jsDigit)) .wordB)))

/-- Pattern `/[∀∃∈∉⊂⊃∪∩∧∨¬→↔≡]/g` — logic symbols. -/
def reLogicSymbols : RE :=
  .cls (fun c =>
    c = '∀' || c = '∃' || c = '∈' || c = '∉' || c = '⊂' || c = '⊃' ||
    c = '∪' || c = '∩' || c = '∧' || c = '∨' || c = '¬' || c = '→' ||
    c = '↔' || c = '≡')

/-- The module-level `mathPatterns` array, in source order. -/
def mathPatterns : List RE :=
  [reInlineLatex, reBlockLatex, reLatexDelims, reBasicEquation,
   reMathWords, reExponent, reFraction, reLogicSymbols]

/-- The mutable `lastIndex` of each of the eight module-level global
regexes. -/
abbrev MathState := List Nat

/-- The `lastIndex` values at module load. -/
def initialMathState : MathState :=
  List.replicate 8 0

/-- Model of `mathPatterns.some(pattern => pattern.test(text))` with each global
regex's `lastIndex` mutation made explicit: `.some` short-circuits, so the
patterns after the first hit keep their state untouched. -/
def someTestGo : List RE → List Nat → List Char → Bool × List Nat
  | [], _, _ => (false, [])
  | _ :: _, [], _ => (false, [])
  | r :: rs, li :: lis, s =>
    let t := testG r s li
    if t.1 then (true, t.2 :: lis)
    else
      let rest := someTestGo rs lis s
      (rest.1, t.2 :: rest.2)

/-- Model of `detectMathContent` of `src/lib/fileExtractor.ts`, with the module-level
regex state passed explicitly. -/
def detectMathContent (text : String) (st : MathState) : Bool × MathState :=
  someTestGo mathPatterns st text.data

/-- Model of `file.name.split('.').pop()?.toLowerCase() || ''`: the last dot-segment
of the filename (the whole name when it has no dot), lower-cased.  `pop` on
the result of `split` is always defined, so the `|| ''` arm is vacuous. -/
def extOf (name : String) : String :=
  ⟨((name.data.reverse.takeWhile (fun c => c ≠ '.')).reverse).map Char.toLower⟩

/-- Model of `ExtractedContent` of `src/lib/fileExtractor.ts`. -/
structure ExtractedContent where
  text : String
  filename : String
  wordCount : Nat
  hasMathContent : Bool
deriving DecidableEq, Repr

/-- Everything the pipeline can observe of one uploaded file's bytes: the
outcome each external parser yields on that same `ArrayBuffer`.  The switch
in `extractFileContent` decides which interpretation is consumed. -/
structure FileBytes where
  /-- `pdfjsLib.getDocument(...).promise`: the loaded document, or the load
  rejection's message. -/
  pdfLoad : Except String PdfDoc
  /-- The elapsed-time oracle of the OCR budget check (see `ocrLoop`). -/
  budgetExceeded : Nat → Bool
  /-- `mammoth.extractRawText({ arrayBuffer })`: `result.value`, or the
  rejection's message. -/
  mammothResult : Except String String
  /-- `FileReader.readAsText`: the decoded text (with a null `result`
  already folded to `''`), or `none` when `onerror` fires. -/
  txtRead : Option String
  /-- The OLE2 container stage (see `CfbParse`). -/
  cfb : CfbParse
  /-- `JSZip.loadAsync`: the archive, or `none` when it throws. -/
  zip : Option ZipModel

/-- An uploaded file: its name and its bytes' parser outcomes. -/
structure SrcFile where
  name : String
  data : FileBytes

/-- Model of `extractFromDOCX`: delegate to mammoth and surface its value or
rejection. -/
def extractFromDOCX (mammothResult : Except String String) : Except String String :=
  mammothResult

/-- Model of `extractFromTXT`: the FileReader result, or its fixed failure message. -/
def extractFromTXT (txtRead : Option String) : Except String String :=
  match txtRead with
  | some s => .ok s
  | none => .error "Failed to read text file"

/-- The message of the `default:` branch of the dispatch switch. -/
def unsupportedMsg (ext : String) : String :=
  "Unsupported file format: " ++ ext

/-- The catch-all wrapper of `extractFileContent`:
`Failed to extract content from <name>: <message>`. -/
def wrapError (name msg : String) : String :=
  "Failed to extract content from " ++ name ++ ": " ++ msg

/-- The extractor the dispatch switch of `extractFileContent` selects. -/
inductive Route where
  | pdf | docx | txt | ppt | pptx | unsupported
deriving DecidableEq, Repr

/-- The switch of `extractFileContent`, keyed on the claimed extension
alone: `pdf`, `docx`/`doc`, `txt`, `ppt`, `pptx`, else unsupported. -/
def routeOf (ext : String) : Route :=
  if ext = "pdf" then .pdf
  else if ext = "docx" ∨ ext = "doc" then .docx
  else if ext = "txt" then .txt
  else if ext = "ppt" then .ppt
  else if ext = "pptx" then .pptx
  else .unsupported

/-- Run one selected extractor on a file's bytes. -/
def runRoute (r : Route) (name : String) (d : FileBytes) : Except String String :=
  match r with
  | .pdf =>
    match d.pdfLoad with
    | .error e => .error e
    | .ok doc => .ok (extractFromPDF doc d.budgetExceeded).text
  | .docx => extractFromDOCX d.mammothResult
  | .txt => extractFromTXT d.txtRead
  | .ppt => extractFromPPTBinary name d.cfb
  | .pptx => (extractFromPPTX name d.zip d.mammothResult).result
  | .unsupported => .error (unsupportedMsg (extOf name))

/-- The `try { switch ... }` body of `extractFileContent`: the text the
selected extractor produces, or the error it throws. -/
def extractionResult (f : SrcFile) : Except String String :=
  let ext := extOf f.name
  if ext = "pdf" then
    match f.data.pdfLoad with
    | .error e => .error e
    | .ok doc => .ok (extractFromPDF doc f.data.budgetExceeded).text
  else if ext = "docx" ∨ ext = "doc" then extractFromDOCX f.data.mammothResult
  else if ext = "txt" then extractFromTXT f.data.txtRead
  else if ext = "ppt" then extractFromPPTBinary f.name f.data.cfb
  else if ext = "pptx" then (extractFromPPTX f.name f.data.zip f.data.mammothResult).result
  else .error (unsupportedMsg ext)

/-- Model of `extractFileContent` of `src/lib/fileExtractor.ts`: dispatch on the
claimed extension, wrap any thrown error with the filename, and annotate a
successful text with its word count and math flag (threading the module
regex state, see `detectMathContent`). -/
def extractFileContent (st : MathState) (f : SrcFile) :
    Except String ExtractedContent × MathState :=
  match extractionResult f with
  | .error e => (.error (wrapError f.name e), st)
  | .ok text =>
    let hm := detectMathContent text st
    (.ok { text := text, filename := f.name, wordCount := countWords text,
           hasMathContent := hm.1 }, hm.2)

/-- The sequential per-file loop of `extractAllFilesContent`: the first
rejection propagates, abandoning the results accumulated so far and the
files not yet processed. -/
def extractAllGo (st : MathState) :
    List SrcFile → Except String (List ExtractedContent) × MathState
  | [] => (.ok [], st)
  | f :: fs =>
    match extractFileContent st f with
    | (.error e, st2) => (.error e, st2)
    | (.ok r, st2) =>
      match extractAllGo st2 fs with
      | (.error e, st3) => (.error e, st3)
      | (.ok rs, st3) => (.ok (r :: rs), st3)

/-- The aggregated output of `extractAllFilesContent`. -/
structure BatchResult where
  combinedText : String
  fileDetails : List ExtractedContent
  totalWordCount : Nat
  hasMathContent : Bool
deriving DecidableEq, Repr

/-- Model of `extractAllFilesContent` of `src/lib/fileExtractor.ts`: extract the
files in submission order (each file fully resolving before the next), then
aggregate; a rejection inside the loop propagates to the caller. -/
def extractAllFilesContent (st : MathState) (files : List SrcFile) :
    Except String BatchResult × MathState :=
  match extractAllGo st files with
  | (.error e, st2) => (.error e, st2)
  | (.ok results, st2) =>
    (.ok {
      combinedText := String.intercalate "\n\n---\n\n"
        (results.map (fun r => "=== " ++ r.filename ++ " ===\n\n" ++ r.text)),
      fileDetails := results,
      totalWordCount := (results.map (fun r => r.wordCount)).foldl (· + ·) 0,
      hasMathContent := results.any (fun r => r.hasMathContent) }, st2)

/-- A concrete `FileBytes` whose every parser outcome is a failure (arbitrary
bytes none of the libraries accept). -/
def opaqueBytes : FileBytes :=
  { pdfLoad := .error "Invalid PDF structure", budgetExceeded := fun _ => false,
    mammothResult := .error "Could not find the body element", txtRead := none,
    cfb := .corrupt, zip := none }

/-- A nine-page scanned document (two native words on page 1) whose sampled
pages — `samplePageNumbers 9 8 = [1, 2, 3, 4, 6, 8, 9]` — all OCR to empty
or whitespace-only text, while the unsampled pages 5 and 7 would OCR to
nonblank text. -/
def blankSampledDoc : PdfDoc :=
  ⟨[⟨["only", "words"], some ""⟩, ⟨[], some " "⟩, ⟨[], none⟩, ⟨[], some ""⟩,
    ⟨[], some "UNSAMPLED FIVE"⟩, ⟨[], some "  "⟩, ⟨[], some "UNSAMPLED SEVEN"⟩,
    ⟨[], some ""⟩, ⟨[], some " "⟩]⟩

/-- A concrete `FileBytes` for a plain-text file holding `s`. -/
def plainTextBytes (s : String) : FileBytes :=
  { opaqueBytes with txtRead := some s }

end FileExtractor

namespace FileConverter

/-- Model of `b.toString(16).padStart(2, '0')` for a byte value. -/
def hexDigit (n : Nat) : Char :=
  if n < 10 then Char.ofNat (48 + n) else Char.ofNat (87 + n)

/-- Two-digit lowercase hex of a byte. -/
def toHex2 (b : Nat) : String :=
  ⟨[hexDigit (b / 16 % 16), hexDigit (b % 16)]⟩

/-- Model of `String.prototype.startsWith`. -/
def strStarts (s pre : String) : Bool :=
  pre.data.isPrefixOf s.data

/-- Model of `String.prototype.includes`, by scanning every position. -/
def includesAux (sub : List Char) : List Char → Bool
  | [] => sub.isPrefixOf []
  | c :: cs => sub.isPrefixOf (c :: cs) || includesAux sub cs

/-- Model of `s.includes(sub)`. -/
def strIncludes (s sub : String) : Bool :=
  includesAux sub.data s.data

/-- An uploaded browser `File` as `detectFileType` reads it: name, size, the
browser-reported MIME type (`file.type`), and the raw bytes (the detector
slices the first 512 and inspects 8). -/
structure BrowserFile where
  name : String
  size : Nat
  mimeType : String
  bytes : List Nat
deriving DecidableEq, Repr

/-- Model of `FileDetectionResult` of the detector module; `detectedFormat` is one of
`pptx | ppt | pdf | docx | txt | unknown`. -/
structure FileDetectionResult where
  filename : String
  actualMimeType : String
  detectedFormat : String
  fileSize : Nat
  isConvertible : Bool
  recommendedAction : String
deriving DecidableEq, Repr

/-- The `magicStr` of `detectFileType`: the first 8 bytes of the 512-byte
slice, hex-encoded and joined (with the `Uint8Array` byte coercion made
explicit). -/
def magicStrOf (file : BrowserFile) : String :=
  String.join (((file.bytes.take 512).take 8).map (fun b => toHex2 (b % 256)))

/-- Model of `detectFileType` of the converter module: classify by magic bytes with
extension/name hints — ZIP signature resolves to pptx/docx by hint, `%PDF`
or a `.pdf` extension to pdf, the OLE2 signature with a ppt-ish name to ppt,
a `.txt` extension to txt, anything else unknown — then derive
convertibility and the recommended action. -/
def detectFileType (file : BrowserFile) : FileDetectionResult :=
  let ext := FileExtractor.extOf file.name
  let magicStr := magicStrOf file
  let fm : String × String :=
    if strStarts magicStr "504b0304" then
      if ext = "pptx" ∨ strIncludes file.name "ppt" then
        ("pptx", "application/vnd.openxmlformats-officedocument.presentationml.presentation")
      else if ext = "docx" then
        ("docx", "application/vnd.openxmlformats-officedocument.wordprocessingml.document")
      else ("unknown", file.mimeType)
    else if strStarts magicStr "25504446" ∨ ext = "pdf" then
      ("pdf", "application/pdf")
    else if strStarts magicStr "d0cf11e0" then
      if ext = "ppt" ∨ strIncludes file.name "ppt" then
        ("ppt", "application/vnd.ms-powerpoint")
      else ("unknown", file.mimeType)
    else if ext = "txt" then ("txt", "text/plain")
    else ("unknown", file.mimeType)
  let detectedFormat := fm.1
  let isConvertible := ["ppt", "pptx", "docx"].contains detectedFormat
  let recommendedAction :=
    if detectedFormat = "ppt" then "EXTRACT_TEXT"
    else if detectedFormat = "pptx" ∨ detectedFormat = "docx" then "EXTRACT_TEXT"
    else if detectedFormat = "pdf" then "EXTRACT_TEXT_WITH_OCR"
    else if detectedFormat = "txt" then "READ_DIRECTLY"
    else ""
  { filename := file.name, actualMimeType := fm.2, detectedFormat := detectedFormat,
    fileSize := file.size, isConvertible := isConvertible,
    recommendedAction := recommendedAction }

end FileConverter

namespace PdfProcessor

/-- Model of `PageResult` of `src/lib/pdf-processor.ts`. -/
structure PageResult where
  page : Nat
  totalPages : Nat
  text : String
deriving DecidableEq, Repr

/-- One page as `processPdfStream` observes it: the native text-layer item
strings and the OCR outcome of the render-and-recognize fallback (`some t`
when `worker.recognize` resolves — `result.data.text || ''` already folded —
`none` when the fallback `try` block throws, which the source maps to
`''`). -/
structure StreamPage where
  items : List String
  ocr : Option String
deriving DecidableEq, Repr

/-- The events the generator produces, in order: the 500 ms sleeps and the
yielded page results. -/
inductive StreamEvent where
  | sleep
  | page (r : PageResult)
deriving DecidableEq, Repr

/-- One page of a batch: native text first
(`textContent.items.map(i => i.str).join(' ').trim()`), used when it has at
least `NATIVE_TEXT_THRESHOLD = 20` characters; otherwise the OCR fallback
(empty text on a throw).  Page numbers issued by the loop are always in
range; an out-of-range lookup yields empty text. -/
def processPage (numPages : Nat) (pages : List StreamPage) (pageNum : Nat) : PageResult :=
  match pages.get? (pageNum - 1) with
  | none => { page := pageNum, totalPages := numPages, text := "" }
  | some pg =>
    let nativeTxt := FileExtractor.jsTrim (String.intercalate " " pg.items)
    if 20 ≤ nativeTxt.length then
      { page := pageNum, totalPages := numPages, text := nativeTxt }
    else
      { page := pageNum, totalPages := numPages, text := pg.ocr.getD "" }

/-- The batch loop of `processPdfStream`
(`for (batchStart = 1; batchStart <= numPages; batchStart += BATCH_SIZE)`,
`BATCH_SIZE = 3`): sleep 500 ms when `batchStart > 1` and
`(batchStart - 1) % 20 === 0`, process pages `batchStart..batchEnd`
concurrently, then yield each nonblank result in page order.  `batchStart`
advances by 3 each iteration, so `fuel = numPages + 1` makes the recursion
exact. -/
def streamGo (pages : List StreamPage) : Nat → Nat → List StreamEvent
  | 0, _ => []
  | fuel + 1, batchStart =>
    if batchStart ≤ pages.length then
      let sleeps : List StreamEvent :=
        if 1 < batchStart ∧ (batchStart - 1) % 20 = 0 then [.sleep] else []
      let batchEnd := min (batchStart + 2) pages.length
      let pageNums := (List.range (batchEnd + 1 - batchStart)).map (· + batchStart)
      let results := pageNums.map (processPage pages.length pages)
      let emitted := (results.filter
        (fun r => FileExtractor.jsTrim r.text ≠ "")).map StreamEvent.page
      sleeps ++ emitted ++ streamGo pages fuel (batchStart + 3)
    else []

/-- Model of `processPdfStream` of `src/lib/pdf-processor.ts`, as its ordered event
trace. -/
def processPdfStream (pages : List StreamPage) : List StreamEvent :=
  streamGo pages (pages.length + 1) 1

/-- The number of sleeps (yields of control) in a trace. -/
def sleepCount (evs : List StreamEvent) : Nat :=
  (evs.filter (fun e => e = StreamEvent.sleep)).length

end PdfProcessor

namespace FileExtractor

lemma mem_addUnique (pages : List Nat) (p x : Nat) :
    x ∈ addUnique pages p ↔ x ∈ pages ∨ x = p := by
  unfold addUnique
  split
  · rename_i hp
    constructor
    · exact Or.inl
    · rintro (h | rfl)
      · exact h
      · exact hp
  · simp

lemma addUnique_nodup {pages : List Nat} (h : pages.Nodup) (p : Nat) :
    (addUnique pages p).Nodup := by
  unfold addUnique
  split
  · exact h
  · simpa [List.nodup_append] using ⟨h, by assumption⟩

lemma addUnique_sub (pages : List Nat) (p : Nat) : pages ⊆ addUnique pages p := by
  intro x hx; exact (mem_addUnique pages p x).2 (Or.inl hx)

lemma fillMiddle_inv (tot mx st : Nat) (fuel : Nat) :
    ∀ (p : Nat) (pages : List Nat), pages.Nodup → (∀ x ∈ pages, x ≤ tot) →
      pages.length ≤ mx →
      (fillMiddle tot mx st fuel p pages).Nodup ∧
      (∀ x ∈ fillMiddle tot mx st fuel p pages, x ≤ tot) ∧
      (fillMiddle tot mx st fuel p pages).length ≤ mx ∧
      pages ⊆ fillMiddle tot mx st fuel p pages := by
  induction fuel with
  | zero => intro p pages h1 h2 h3; exact ⟨h1, h2, h3, fun _ hx => hx⟩
  | succ fuel ih =>
    intro p pages h1 h2 h3
    rw [fillMiddle]
    split
    · rename_i hcond
      have hadd := ih (p + st) (addUnique pages p) (addUnique_nodup h1 p)
        (fun x hx => by
          rcases (mem_addUnique pages p x).1 hx with h | h
          · exact h2 x h
          · omega)
        (by
          unfold addUnique
          split
          · omega
          · simp only [List.length_append, List.length_singleton]; omega)
      exact ⟨hadd.1, hadd.2.1, hadd.2.2.1,
        fun x hx => hadd.2.2.2 (addUnique_sub pages p hx)⟩
    · exact ⟨h1, h2, h3, fun _ hx => hx⟩

lemma mem_sortAsc (l : List Nat) (x : Nat) : x ∈ sortAsc l ↔ x ∈ l :=
  (List.perm_insertionSort (· ≤ ·) l).mem_iff

lemma sortAsc_nodup {l : List Nat} (h : l.Nodup) : (sortAsc l).Nodup :=
  ((List.perm_insertionSort (· ≤ ·) l).nodup_iff).2 h

lemma sortAsc_sorted (l : List Nat) : (sortAsc l).Sorted (· ≤ ·) :=
  List.sorted_insertionSort (· ≤ ·) l

lemma sortAsc_length (l : List Nat) : (sortAsc l).length = l.length :=
  (List.perm_insertionSort (· ≤ ·) l).length_eq

/-- For `N > 8` the seed set is exactly `{1, 2, 3, N-1, N}` (in insertion
order) and the middle-fill step is `⌊N / 4⌋`. -/
lemma samplePageNumbers_eq (N : Nat) (h : 8 < N) :
    samplePageNumbers N 8 =
      sortAsc (fillMiddle N 8 (N / 4) (N + 1) (N / 4) [1, 2, 3, N - 1, N]) := by
  have hmin : min 3 N = 3 := by omega
  have hmax : max 1 (N - 1) = N - 1 := by omega
  have hsub : N + 1 - (N - 1) = 2 := by omega
  have h1 : (N - 1 ∈ [1, 2, 3]) = False := by simp; omega
  have h3 : 1 + (N - 1) = N := by omega
  have hcond : (N - 1 = 0 ∨ N = 2 ∨ N = 3) = False := by simp; omega
  have hcond2 : (N = 1 ∨ N = 2 ∨ N = 3 ∨ N = N - 1) = False := by simp; omega
  unfold samplePageNumbers
  rw [if_neg (by omega)]
  simp only [hmin, hmax, hsub]
  norm_num [addUnique, List.range_succ, h1, h3, hcond, hcond2]

/-- Claim C2, counterexample: for `totalPages = 9 > 8`,
`samplePageNumbers 9 8` returns only 7 page numbers, not exactly 8 as the
claim states. -/
theorem samplePageNumbers_nine_not_eight :
    samplePageNumbers 9 8 = [1, 2, 3, 4, 6, 8, 9] ∧
    (samplePageNumbers 9 8).length = 7 := by
  exact ⟨by decide, by decide⟩

/-- Claim C2 (amended): for every `totalPages = N > 8`,
`samplePageNumbers N 8` returns at most 8 distinct page numbers in strictly
ascending order, always including pages 1, 2, 3 and pages `N-1`, `N`, with
every returned page number at most `N`.  (The original "exactly 8" fails,
see `samplePageNumbers_nine_not_eight`.) -/
theorem samplePageNumbers_sampled_spec (N : Nat) (h : 8 < N) :
    (samplePageNumbers N 8).Sorted (· < ·) ∧
    (samplePageNumbers N 8).length ≤ 8 ∧
    1 ∈ samplePageNumbers N 8 ∧ 2 ∈ samplePageNumbers N 8 ∧
    3 ∈ samplePageNumbers N 8 ∧ N - 1 ∈ samplePageNumbers N 8 ∧
    N ∈ samplePageNumbers N 8 ∧ ∀ p ∈ samplePageNumbers N 8, p ≤ N := by
  have hinv := fillMiddle_inv N 8 (N / 4) (N + 1) (N / 4) [1, 2, 3, N - 1, N]
    (by simp [List.nodup_cons]; omega)
    (by intro x hx; simp at hx; omega)
    (by simp)
  rw [samplePageNumbers_eq N h]
  refine ⟨(sortAsc_sorted _).lt_of_le (sortAsc_nodup hinv.1), ?_, ?_, ?_, ?_, ?_, ?_, ?_⟩
  · rw [sortAsc_length]; exact hinv.2.2.1
  · exact (mem_sortAsc _ _).2 (hinv.2.2.2 (by simp))
  · exact (mem_sortAsc _ _).2 (hinv.2.2.2 (by simp))
  · exact (mem_sortAsc _ _).2 (hinv.2.2.2 (by simp))
  · exact (mem_sortAsc _ _).2 (hinv.2.2.2 (by simp))
  · exact (mem_sortAsc _ _).2 (hinv.2.2.2 (by simp))
  · intro p hp
    exact hinv.2.1 p ((mem_sortAsc _ _).1 hp)

/-- Claim C2, witness: the amended specification holds at `totalPages = 20`. -/
theorem samplePageNumbers_sampled_spec_witness :
    (samplePageNumbers 20 8).Sorted (· < ·) ∧
    (samplePageNumbers 20 8).length ≤ 8 ∧
    1 ∈ samplePageNumbers 20 8 ∧ 2 ∈ samplePageNumbers 20 8 ∧
    3 ∈ samplePageNumbers 20 8 ∧ 20 - 1 ∈ samplePageNumbers 20 8 ∧
    20 ∈ samplePageNumbers 20 8 ∧ ∀ p ∈ samplePageNumbers 20 8, p ≤ 20 :=
  samplePageNumbers_sampled_spec 20 (by decide)

/-- Claim C3: for every PDF whose native text layer yields at least 50 words,
`extractFromPDF` returns the trimmed native text and starts zero OCR
operations (no page is rendered, no OCR worker is called). -/
theorem extractFromPDF_native_skips_ocr (doc : PdfDoc) (budgetExceeded : Nat → Bool)
    (h : 50 ≤ countWords (jsTrim (nativeText doc))) :
    extractFromPDF doc budgetExceeded = { text := jsTrim (nativeText doc), ocrCalls := 0 } := by
  unfold extractFromPDF
  simp only [h, if_pos]

set_option maxRecDepth 4000 in
/-- Claim C3, witness: a one-page document whose text layer holds 50 words
is extracted natively with zero OCR calls. -/
theorem extractFromPDF_native_skips_ocr_witness :
    50 ≤ countWords (jsTrim (nativeText ⟨[⟨List.replicate 50 "a", none⟩]⟩)) ∧
    extractFromPDF ⟨[⟨List.replicate 50 "a", none⟩]⟩ (fun _ => false) =
      { text := jsTrim (nativeText ⟨[⟨List.replicate 50 "a", none⟩]⟩), ocrCalls := 0 } :=
  ⟨by decide, extractFromPDF_native_skips_ocr _ _ (by decide)⟩

lemma ocrLoop_blank (doc : PdfDoc) (pagesToOCR : List Nat) (budgetExceeded : Nat → Bool)
    (hocr : ∀ p ∈ pagesToOCR, ocrPage doc p = none) :
    ∀ fuel i, (ocrLoop doc pagesToOCR budgetExceeded fuel i).1 = [] := by
  intro fuel
  induction fuel with
  | zero => intro i; rfl
  | succ fuel ih =>
    intro i
    rw [ocrLoop]
    split
    · split
      · rfl
      · have hbatch : ((pagesToOCR.drop i).take 4).filterMap (ocrPage doc) = [] := by
          rw [List.filterMap_eq_nil_iff]
          intro p hp
          simp [hocr p (List.drop_subset _ _ (List.take_subset _ _ hp))]
        simp only [hbatch, ih, List.nil_append]
    · rfl

/-- Claim C8: for every PDF each of whose sampled pages
(`samplePageNumbers(numPages, 8)`) OCRs to empty or whitespace-only text —
the unsampled pages are unconstrained — `extractFromPDF` returns the trimmed
native text (possibly empty): no error, no `[Page N]` marker and no sampling
note are produced, whatever the budget oracle does.  (When the native text
has at least 50 words this holds already by `extractFromPDF_native_skips_ocr`;
the claim's sub-50-words case is the second branch of the proof.) -/
theorem extractFromPDF_blank_ocr_native (doc : PdfDoc) (budgetExceeded : Nat → Bool)
    (hocr : ∀ p ∈ samplePageNumbers doc.pages.length 8,
      ∀ pg ∈ doc.pages.get? (p - 1), ∀ t ∈ pg.ocr, jsTrim t = "") :
    (extractFromPDF doc budgetExceeded).text = jsTrim (nativeText doc) := by
  have hpages : ∀ p ∈ samplePageNumbers doc.pages.length 8, ocrPage doc p = none := by
    intro p hp
    unfold ocrPage
    cases hg : doc.pages.get? (p - 1) with
    | none => rfl
    | some pg =>
      cases ho : pg.ocr with
      | none => simp [ho]
      | some t =>
        have ht : jsTrim t = "" := hocr p hp pg hg t ho
        simp [ho, ht]
  unfold extractFromPDF
  dsimp only
  split
  · rfl
  · rw [ocrLoop_blank doc _ budgetExceeded hpages]
    simp

/-- Claim C8, witness: on `blankSampledDoc` — nine pages, so pages 5 and 7
are not sampled, and those two would OCR to nonblank text — every sampled
page OCRs blank and the function returns the trimmed native text. -/
theorem extractFromPDF_blank_ocr_native_witness :
    (∀ p ∈ samplePageNumbers blankSampledDoc.pages.length 8,
      ∀ pg ∈ blankSampledDoc.pages.get? (p - 1), ∀ t ∈ pg.ocr, jsTrim t = "") ∧
    5 ∉ samplePageNumbers blankSampledDoc.pages.length 8 ∧
    7 ∉ samplePageNumbers blankSampledDoc.pages.length 8 ∧
    (extractFromPDF blankSampledDoc (fun _ => false)).text =
      jsTrim (nativeText blankSampledDoc) :=
  ⟨by decide, by decide, by decide,
    extractFromPDF_blank_ocr_native blankSampledDoc (fun _ => false) (by decide)⟩

/-- Claim C4, counterexample: a Document stream that is a single corrupt
record header (no text block accepted before it) makes
`extractFromPPTBinary` throw the no-readable-text error rather than return
the (empty) concatenation without throwing, contradicting the claim as
stated. -/
theorem extractFromPPTBinary_corrupt_only_throws :
    corruptHeaderAt [0, 0, 168, 15, 255, 255, 255, 255] 0 ∧
    extractFromPPTBinary "deck.ppt" (.stream [0, 0, 168, 15, 255, 255, 255, 255]) =
      .error (noReadableTextMsg "deck.ppt") := by
  exact ⟨⟨by decide, by decide⟩, by decide⟩

/-- Claim C4 (amended): at a record header claiming a `recLen` larger than
the remaining stream or above the 10 MB ceiling, the scan halts at that
record, keeping exactly the text blocks accepted before it; the function
then returns their blank-line concatenation when at least one block was
accepted over the whole scan, and throws the no-readable-text error when
none was (see `extractFromPPTBinary_corrupt_only_throws`). -/
theorem extractFromPPTBinary_corrupt_halts (filename : String) (s : List Nat)
    (off fuel : Nat) (texts : List String) (h : corruptHeaderAt s off) :
    scanGo s (fuel + 1) off texts = texts ∧
    (scanRecords s = [] →
      extractFromPPTBinary filename (.stream s) = .error (noReadableTextMsg filename)) ∧
    (scanRecords s ≠ [] →
      extractFromPPTBinary filename (.stream s) =
        .ok (String.intercalate "\n\n" (scanRecords s))) := by
  refine ⟨?_, ?_, ?_⟩
  · rw [scanGo]
    rw [if_pos h.1]
    dsimp only
    rw [if_pos h.2]
  · intro he
    unfold extractFromPPTBinary
    simp [he]
  · intro hne
    unfold extractFromPPTBinary
    simp [List.length_eq_zero, hne]

/-- Claim C4, witness: a stream holding one 5-byte TextBytesAtom `"Hello"`
followed by a corrupt header returns exactly `"Hello"`. -/
theorem extractFromPPTBinary_corrupt_halts_witness :
    corruptHeaderAt
      [0, 0, 168, 15, 5, 0, 0, 0, 72, 101, 108, 108, 111, 0, 0, 0, 0, 255, 255, 255, 255] 13 ∧
    scanRecords
      [0, 0, 168, 15, 5, 0, 0, 0, 72, 101, 108, 108, 111, 0, 0, 0, 0, 255, 255, 255, 255] ≠ [] ∧
    extractFromPPTBinary "deck.ppt"
      (.stream [0, 0, 168, 15, 5, 0, 0, 0, 72, 101, 108, 108, 111, 0, 0, 0, 0, 255, 255, 255, 255]) =
      .ok (String.intercalate "\n\n" (scanRecords
        [0, 0, 168, 15, 5, 0, 0, 0, 72, 101, 108, 108, 111, 0, 0, 0, 0, 255, 255, 255, 255])) :=
  ⟨by decide, by decide,
    (extractFromPPTBinary_corrupt_halts "deck.ppt" _ 13 0 [] (by decide)).2.2 (by decide)⟩

/-- Claim C5, counterexample: a PPTX that parses as a ZIP archive with zero
slides (so zero slides yield text) is not given to the generic converter —
even one that would recover text — and is not terminal: the extractor
returns the bracketed placeholder as the file's text with zero converter
calls. -/
theorem extractFromPPTX_zero_slides_no_fallback :
    extractFromPPTX "deck.pptx" (some ⟨[]⟩) (.ok "RECOVERED TEXT") =
      { result := .ok (noExtractableTextMsg "deck.pptx"), mammothCalls := 0 } := by
  decide

/-- Claim C5 (amended): when the archive parses but zero slide and notes
blocks yield text, `extractFromPPTX` returns the bracketed
no-extractable-text placeholder as the extracted text, with zero calls to
the generic document-to-raw-text converter and no error; the converter
fallback and the terminal actionable error occur only when the ZIP/XML stage
throws (`zip = none`): the fallback's nonblank text is returned, otherwise
the terminal suggestion to export as PDF or DOCX is thrown. -/
theorem extractFromPPTX_zero_text_placeholder (filename : String) (z : ZipModel)
    (mammothResult : Except String String)
    (h : pptxSlideTexts z ++ pptxNoteTexts z = []) :
    extractFromPPTX filename (some z) mammothResult =
      { result := .ok (noExtractableTextMsg filename), mammothCalls := 0 } ∧
    (∀ v, mammothResult = .ok v → jsTrim v ≠ "" →
      extractFromPPTX filename none mammothResult = { result := .ok v, mammothCalls := 1 }) ∧
    (∀ v, mammothResult = .ok v → jsTrim v = "" →
      extractFromPPTX filename none mammothResult =
        { result := .error (pptxFailMsg filename), mammothCalls := 1 }) := by
  refine ⟨?_, ?_, ?_⟩
  · unfold extractFromPPTX
    simp [h]
  · intro v hv hnb
    unfold extractFromPPTX
    simp [hv, hnb]
  · intro v hv hb
    unfold extractFromPPTX
    simp [hv, hb]

/-- Claim C5, witness: a one-slide archive whose slide XML holds no text run
gets the placeholder; a broken archive whose mammoth fallback yields
`"Recovered"` returns it. -/
theorem extractFromPPTX_zero_text_placeholder_witness :
    (pptxSlideTexts ⟨[("ppt/slides/slide1.xml", "<p:sp></p:sp>")]⟩ ++
      pptxNoteTexts ⟨[("ppt/slides/slide1.xml", "<p:sp></p:sp>")]⟩ = []) ∧
    extractFromPPTX "deck.pptx" (some ⟨[("ppt/slides/slide1.xml", "<p:sp></p:sp>")]⟩)
        (.ok "Recovered") =
      { result := .ok (noExtractableTextMsg "deck.pptx"), mammothCalls := 0 } ∧
    extractFromPPTX "deck.pptx" none (.ok "Recovered") =
      { result := .ok "Recovered", mammothCalls := 1 } :=
  ⟨by decide,
    (extractFromPPTX_zero_text_placeholder "deck.pptx" _ _ (by decide)).1,
    (extractFromPPTX_zero_text_placeholder "deck.pptx"
        ⟨[("ppt/slides/slide1.xml", "<p:sp></p:sp>")]⟩ (.ok "Recovered")
        (by decide)).2.1 "Recovered" rfl (by decide)⟩

/-- Claim C10: `detectMathContent` is not deterministic across successive
calls: on the text `"$x$"` (a single inline LaTeX expression) a first call
returns `true` — and leaves the inline-LaTeX regex's `lastIndex` at the
match end — so an immediately repeated call on the identical string returns
`false`. -/
theorem detectMathContent_nondeterministic :
    (detectMathContent "$x$" initialMathState).1 = true ∧
    (detectMathContent "$x$" (detectMathContent "$x$" initialMathState).2).1 = false := by
  exact ⟨by decide, by decide⟩

/-- Claim C1, counterexample: in a two-file batch whose first file fails
(unsupported extension `.xyz`) and whose second file would extract fine,
`extractAllFilesContent` rejects with the first file's wrapped error: the
sibling's content is neither extracted into a result list nor returned, and
no per-file result carries the error. -/
theorem extractAllFilesContent_abort_cex :
    (extractFileContent initialMathState ⟨"bad.xyz", opaqueBytes⟩).1 =
      .error (wrapError "bad.xyz" (unsupportedMsg "xyz")) ∧
    (extractFileContent initialMathState ⟨"notes.txt", plainTextBytes "hello world"⟩).1 =
      .ok { text := "hello world", filename := "notes.txt", wordCount := 2,
            hasMathContent := false } ∧
    (extractAllFilesContent initialMathState
        [⟨"bad.xyz", opaqueBytes⟩, ⟨"notes.txt", plainTextBytes "hello world"⟩]).1 =
      .error (wrapError "bad.xyz" (unsupportedMsg "xyz")) := by
  exact ⟨by decide, by decide, by decide⟩

/-- Claim C1 (amended): a failure extracting one file aborts the whole
batch: when every file before it succeeds and file `f` fails with `e`,
`extractAllFilesContent` rejects with `f`'s wrapped error — the siblings'
results (already extracted or not yet reached) are not returned, and no
per-file result carries the error. -/
theorem extractAllFilesContent_first_failure_aborts (pre : List SrcFile) (f : SrcFile)
    (post : List SrcFile) (st : MathState) (e : String)
    (hpre : ∀ g ∈ pre, ∃ t, extractionResult g = .ok t)
    (hf : extractionResult f = .error e) :
    (extractAllFilesContent st (pre ++ f :: post)).1 = .error (wrapError f.name e) := by
  suffices h : ∀ st2, (extractAllGo st2 (pre ++ f :: post)).1 = .error (wrapError f.name e) by
    unfold extractAllFilesContent
    rcases hgo : extractAllGo st (pre ++ f :: post) with ⟨res, st2⟩
    have := h st
    rw [hgo] at this
    simp at this
    subst this
    rfl
  induction pre with
  | nil =>
    intro st2
    simp only [List.nil_append, extractAllGo]
    unfold extractFileContent
    rw [hf]
  | cons g gs ih =>
    intro st2
    obtain ⟨t, ht⟩ := hpre g (by simp)
    have ih2 := ih (fun g hg => hpre g (by simp [hg]))
    simp only [List.cons_append, extractAllGo]
    unfold extractFileContent
    rw [ht]
    dsimp only
    have hres := ih2 (detectMathContent t st2).2
    revert hres
    rcases extractAllGo (detectMathContent t st2).2 (gs ++ f :: post) with ⟨res, st3⟩
    intro hres
    dsimp only at hres
    subst hres
    rfl

/-- Claim C1, witness: a batch whose first file succeeds and whose second
fails rejects with the second file's wrapped error. -/
theorem extractAllFilesContent_first_failure_aborts_witness :
    (∀ g ∈ [SrcFile.mk "notes.txt" (plainTextBytes "hello world")],
      ∃ t, extractionResult g = .ok t) ∧
    extractionResult ⟨"bad.xyz", opaqueBytes⟩ = .error (unsupportedMsg "xyz") ∧
    (extractAllFilesContent initialMathState
        [⟨"notes.txt", plainTextBytes "hello world"⟩, ⟨"bad.xyz", opaqueBytes⟩]).1 =
      .error (wrapError "bad.xyz" (unsupportedMsg "xyz")) :=
  ⟨fun g hg => by
    rw [List.mem_singleton] at hg
    exact ⟨"hello world", by rw [hg]; decide⟩,
   by decide,
   extractAllFilesContent_first_failure_aborts
     [⟨"notes.txt", plainTextBytes "hello world"⟩] ⟨"bad.xyz", opaqueBytes⟩ []
     initialMathState "Unsupported file format: xyz"
     (fun g hg => by
       rw [List.mem_singleton] at hg
       exact ⟨"hello world", by rw [hg]; decide⟩)
     (by decide)⟩

/-- Claim C9: `extractFileContent` dispatches solely on the lower-cased last
dot-segment of the filename — the extraction factors through
`routeOf (extOf name)`, with the bytes influencing only the selected
extractor's run — extension `doc` is routed to the DOCX converter
(mammoth), and any extension outside pdf/docx/doc/txt/ppt/pptx rejects with
the wrapped unsupported-format error. -/
theorem extractFileContent_dispatch (f : SrcFile) (st : MathState) :
    extractionResult f = runRoute (routeOf (extOf f.name)) f.name f.data ∧
    routeOf "doc" = Route.docx ∧
    (∀ d, runRoute Route.docx f.name d = d.mammothResult) ∧
    (extOf f.name ∉ ["pdf", "docx", "doc", "txt", "ppt", "pptx"] →
      (extractFileContent st f).1 =
        .error (wrapError f.name (unsupportedMsg (extOf f.name)))) := by
  refine ⟨?_, by decide, fun d => rfl, ?_⟩
  · unfold extractionResult routeOf runRoute
    dsimp only
    split_ifs <;> rfl
  · intro h
    simp only [List.mem_cons, List.mem_singleton] at h
    push_neg at h
    obtain ⟨h1, h2, h3, h4, h5, h6, -⟩ := h
    unfold extractFileContent extractionResult
    dsimp only
    rw [if_neg h1,
      if_neg (by tauto : ¬(extOf f.name = "docx" ∨ extOf f.name = "doc")),
      if_neg h4, if_neg h5, if_neg h6]

/-- Claim C9, witness: a file named `a.weird` (extension outside the
supported set) rejects with the wrapped unsupported-format error, whatever
its bytes hold. -/
theorem extractFileContent_dispatch_witness :
    extOf "a.weird" ∉ ["pdf", "docx", "doc", "txt", "ppt", "pptx"] ∧
    (extractFileContent initialMathState ⟨"a.weird", plainTextBytes "hi"⟩).1 =
      .error (wrapError "a.weird" (unsupportedMsg (extOf "a.weird"))) :=
  ⟨by decide,
   (extractFileContent_dispatch ⟨"a.weird", plainTextBytes "hi"⟩ initialMathState).2.2.2
     (by decide)⟩

end FileExtractor

namespace FileConverter

/-- Claim C6, counterexample: a file whose claimed extension is `.pdf` but
whose magic bytes are the ZIP signature `PK\x03\x04` is classified
`unknown`, not `pdf` — the ZIP branch wins and offers no pdf arm. -/
theorem detectFileType_zip_pdf_unknown :
    (detectFileType ⟨"notes.pdf", 2048, "application/pdf",
      [0x50, 0x4b, 0x03, 0x04, 0x14, 0x00, 0x00, 0x00]⟩).detectedFormat = "unknown" := by
  decide

/-- Claim C6 (amended): a file whose claimed extension is `.pdf` is
classified `pdf` whenever its magic bytes are not the ZIP signature
`50 4b 03 04`; with the ZIP signature the ZIP branch wins instead
(pptx/docx/unknown by name hints, see `detectFileType_zip_pdf_unknown`). -/
theorem detectFileType_pdf_ext (file : BrowserFile)
    (hext : FileExtractor.extOf file.name = "pdf")
    (hz : strStarts (magicStrOf file) "504b0304" = false) :
    (detectFileType file).detectedFormat = "pdf" := by
  unfold detectFileType
  dsimp only
  rw [if_neg (by simp [hz]), if_pos (Or.inr hext)]

/-- Claim C6, witness: a `.pdf` file with OLE2 magic bytes (not ZIP) is
still classified `pdf` on the strength of its extension. -/
theorem detectFileType_pdf_ext_witness :
    FileExtractor.extOf "scan.pdf" = "pdf" ∧
    strStarts (magicStrOf ⟨"scan.pdf", 4096, "",
      [0xd0, 0xcf, 0x11, 0xe0, 0xa1, 0xb1, 0x1a, 0xe1]⟩) "504b0304" = false ∧
    (detectFileType ⟨"scan.pdf", 4096, "",
      [0xd0, 0xcf, 0x11, 0xe0, 0xa1, 0xb1, 0x1a, 0xe1]⟩).detectedFormat = "pdf" :=
  ⟨by decide, by decide, detectFileType_pdf_ext _ (by decide) (by decide)⟩

end FileConverter

namespace PdfProcessor

/-- Claim C7: the claim (and the source's own comment) expect a brief sleep
once per 20 processed pages; but `batchStart - 1` is always a multiple of
`BATCH_SIZE = 3`, so the condition `(batchStart - 1) % 20 === 0` fires only
at multiples of 60: a 41-page scanned document (which should sleep twice)
never sleeps, and a 61-page one (which should sleep three times) sleeps
once, at `batchStart = 61`. -/
theorem processPdfStream_sleep_undercount :
    sleepCount (processPdfStream (List.replicate 41 ⟨[], some "text"⟩)) = 0 ∧
    sleepCount (processPdfStream (List.replicate 61 ⟨[], some "text"⟩)) = 1 := by
  exact ⟨by decide, by decide⟩

end PdfProcessor
